import Mathlib

/-
Verification of the MEV sandwich bot core (opportunity detection and
optimization pipeline) against its natural-language specification.

Shallow embedding of:
  - utils/SandwichOptimizer.js   (market optimizer, real-valued math)
  - utils/SandwichExecutor.js    (nonce handling, dispatch)
  - utils/TokenManager.js        (blacklist / fee-detection heuristics)
  - utils/TransactionDecoder.js  (pending-transaction classifier)
  - core/OpportunityProcessor.js (in-flight opportunity map)

Conventions used throughout:
  - JavaScript floating-point arithmetic in the optimizer is modelled over ℝ
    (`Math.sqrt` becomes `Real.sqrt`); these values are advisory per the spec.
  - ethers BigNumber arithmetic on wei amounts uses `.mul`/`.div` with integer
    floor semantics; gas prices are modelled as ℕ (wei) with Nat floor division.
  - Ether-denominated amounts inside the optimizer are kept in ether units
    over ℝ; the `formatEther`/`parseEther` round-trips of the source preserve
    the numeric value up to 1 wei, which no stated property depends on.
  - Fallible JavaScript operations (RPC calls, throwing library calls) are
    modelled with `Except String`; a `try/catch` becomes a `match` on it.
-/

namespace SandwichBot

/-! ## SandwichOptimizer.calculateOptimalFrontRunAmount (SandwichOptimizer.js 109-176)

The three-trade simulation (lines 135-154) applies the constant-product output
formula three times, with reserves updated after the first and second hops.
The third (back-run) hop runs in the reverse direction: its input-side reserve
is `newY2` and its output-side reserve is `newX2`. -/

/-- Constant-product output formula `out = (reserveOut * in * gamma) / (reserveIn + in * gamma)`
as written inline in `calculateOptimalFrontRunAmount` for each of the three hops.
Real division totalizes the JS expression; every property below is stated on
inputs where the source would not divide 0 by 0. -/
noncomputable def hopOut (rIn rOut amt gamma : ℝ) : ℝ :=
  rOut * amt * gamma / (rIn + amt * gamma)

/-- All intermediate quantities of the three-hop simulation of
`calculateOptimalFrontRunAmount` (lines 135-157): front-run output, reserves
after the front-run, victim output, reserves after the victim trade, and the
back-run output. -/
structure SimTrace where
  frontRunOutput : ℝ
  newX1 : ℝ
  newY1 : ℝ
  victimOutput : ℝ
  newX2 : ℝ
  newY2 : ℝ
  backRunOutput : ℝ

/-- Lines 135-154 of SandwichOptimizer.js: simulate front-run of size `a`,
the victim trade of size `v`, and the back-run (selling the front-run output
back), updating reserves after each of the first two hops. -/
noncomputable def simulateThreeHops (x y a v gamma : ℝ) : SimTrace :=
  let frontRunOutput := hopOut x y a gamma
  let newX1 := x + a * gamma
  let newY1 := y - frontRunOutput
  let victimOutput := hopOut newX1 newY1 v gamma
  let newX2 := newX1 + v * gamma
  let newY2 := newY1 - victimOutput
  let backRunInput := frontRunOutput
  let backRunOutput := hopOut newY2 newX2 backRunInput gamma
  ⟨frontRunOutput, newX1, newY1, victimOutput, newX2, newY2, backRunOutput⟩

/-- Return value of `calculateOptimalFrontRunAmount` (ether units). -/
structure FrontRunResult where
  optimalFrontRunAmount : ℝ
  optimalBackRunAmount : ℝ
  expectedProfit : ℝ
  confidence : ℝ

/-- SandwichOptimizer.calculateOptimalFrontRunAmount (lines 109-176):
closed-form unconstrained optimum `(sqrt(x*v*gamma) - x) / gamma`, clamped to
`[0, 0.3*v]` (lines 121-133), followed by the three-hop simulation and the
profit / confidence computation. `fee` is passed as 997 by the only caller. -/
noncomputable def calculateOptimalFrontRunAmount
    (reserveIn reserveOut victimAmount fee : ℝ) : FrontRunResult :=
  let x := reserveIn
  let y := reserveOut
  let v := victimAmount
  let feeMultiplier := fee / 1000
  let sqrtTerm := Real.sqrt (x * v * feeMultiplier)
  let unconstrained := (sqrtTerm - x) / feeMultiplier
  let optimalFrontRunDecimal := max 0 unconstrained
  let cappedOptimalAmount := min optimalFrontRunDecimal (v * 0.3)
  let t := simulateThreeHops x y cappedOptimalAmount v feeMultiplier
  let profitDecimal := t.backRunOutput - cappedOptimalAmount
  let priceImpactFrontRun := cappedOptimalAmount / x
  let confidence := max 0 (min 1 (1 - priceImpactFrontRun * 2))
  ⟨cappedOptimalAmount, t.frontRunOutput, profitDecimal, confidence⟩

/-! ## SandwichOptimizer.calculateOptimalGasPrice / calculateOptimalSandwichParams
(SandwichOptimizer.js 24-104 and 181-192)

Gas prices are wei integers (ethers BigNumber); `.mul(115).div(100)` is floor
division on ℕ.  `calculateOptimalSandwichParams` runs the whole try-block
(modelled by `sandwichParamsCore`) and then builds the returned object, whose
`gasLimit` field evaluates `estimatedGasUsed.mul(this.GAS_BUFFER)` with
`GAS_BUFFER = 1.2`: ethers v5 `BigNumber.from` rejects a fractional JS number
with an `underflow` fault, so constructing the result object throws and the
surrounding catch returns the fallback `{ profitable: false, confidence: 0 }`. -/

/-- SandwichOptimizer.calculateOptimalGasPrice (lines 181-192):
`max(victimGasPrice * 115 / 100, networkGasPrice * 110 / 100)` in wei with
BigNumber floor division. -/
def calculateOptimalGasPrice (victimGasPrice networkGasPrice : ℕ) : ℕ :=
  let minFrontRunGasPrice := victimGasPrice * 115 / 100
  let effectiveGasPrice := networkGasPrice * 110 / 100
  if minFrontRunGasPrice > effectiveGasPrice then minFrontRunGasPrice else effectiveGasPrice

/-- Every quantity computed by the try-block of `calculateOptimalSandwichParams`
(lines 26-73) before the return object is built.  Ether-denominated amounts are
ℝ (ether units); gas prices are ℕ (wei). -/
structure SandwichParamsCore where
  flashLoanAmount : ℝ
  frontRunAmount : ℝ
  backRunAmount : ℝ
  expectedProfit : ℝ
  netProfit : ℝ
  profitable : Prop
  optimalGasPrice : ℕ
  finalGasPrice : ℕ
  confidence : ℝ

/-- The try-block of SandwichOptimizer.calculateOptimalSandwichParams
(lines 26-73): optimizer call with fee 997, flash-loan sizing (120% of the
front-run), gas cost at 600000 gas units, Aave fee 9 bips, net profit against
`MIN_PROFIT_THRESHOLD`, and the gas price capped at `MAX_GAS_PRICE`. -/
noncomputable def sandwichParamsCore (reserveIn reserveOut amountIn : ℝ)
    (victimGasPrice networkGasPrice maxGasPriceWei : ℕ)
    (minProfitThreshold : ℝ) : SandwichParamsCore :=
  let result := calculateOptimalFrontRunAmount reserveIn reserveOut amountIn 997
  let flashLoanAmount := result.optimalFrontRunAmount * 12 / 10
  let estimatedGasUsed : ℕ := 600000
  let gasCost : ℝ := (networkGasPrice * estimatedGasUsed : ℕ) / 10 ^ 18
  let flashLoanFee := flashLoanAmount * 9 / 10000
  let totalCost := gasCost + flashLoanFee
  let netProfit := result.expectedProfit - totalCost
  let profitable : Prop := netProfit > minProfitThreshold
  let optimalGasPrice := calculateOptimalGasPrice victimGasPrice networkGasPrice
  let finalGasPrice := if optimalGasPrice > maxGasPriceWei then maxGasPriceWei else optimalGasPrice
  ⟨flashLoanAmount, result.optimalFrontRunAmount, result.optimalBackRunAmount,
    result.expectedProfit, netProfit, profitable, optimalGasPrice, finalGasPrice,
    result.confidence⟩

/-- ethers v5 `BigNumber.from` applied to a JS number: integral values are
accepted, fractional values raise an `underflow` fault. -/
def bnFromNumber (q : ℚ) : Except String ℤ :=
  if q.den = 1 then .ok q.num else .error "underflow"

/-- `this.GAS_BUFFER = 1.2` (SandwichOptimizer.js line 16). -/
def GAS_BUFFER : ℚ := 6 / 5

/-- What `calculateOptimalSandwichParams` returns: either the full parameter
object, or the catch-block fallback `{ profitable: false, confidence: 0 }`. -/
inductive SandwichParamsResult where
  | full (p : SandwichParamsCore) (gasLimit : ℤ)
  | fallback

/-- The `profitable` flag of the returned object (`false` for the fallback). -/
def SandwichParamsResult.isProfitable : SandwichParamsResult → Prop
  | .full p _ => p.profitable
  | .fallback => False

/-- The `gasPrice` field of the returned object (absent for the fallback). -/
def SandwichParamsResult.gasPrice : SandwichParamsResult → Option ℕ
  | .full p _ => some p.finalGasPrice
  | .fallback => none

/-- SandwichOptimizer.calculateOptimalSandwichParams (lines 24-104): run the
try-block, then build the return object.  Its `gasLimit` field is
`estimatedGasUsed.mul(GAS_BUFFER).div(10)`; `BigNumber.from(1.2)` throws
(`bnFromNumber GAS_BUFFER` is an error), so the catch fallback is returned. -/
noncomputable def calculateOptimalSandwichParams (reserveIn reserveOut amountIn : ℝ)
    (victimGasPrice networkGasPrice maxGasPriceWei : ℕ)
    (minProfitThreshold : ℝ) : SandwichParamsResult :=
  let core := sandwichParamsCore reserveIn reserveOut amountIn
    victimGasPrice networkGasPrice maxGasPriceWei minProfitThreshold
  match bnFromNumber GAS_BUFFER with
  | .error _ => .fallback
  | .ok buf => .full core (600000 * buf / 10)

/-! ## TokenManager (utils/TokenManager.js)

Addresses are modelled as ℕ in canonical (lower-case) form, so the source's
`toLowerCase()` normalisations are identities.  Contract bytecode is a hex
string; `code.includes(selector.slice(2))` is a substring test. -/

abbrev Addr := ℕ

/-- ERC20 Transfer event topic used by the `hasFee` closure. -/
def TRANSFER_TOPIC : String :=
  "ddf252ad1be2c89b69c2b068fc378daa952ba7f163c4a11628f55a4df523b3ef"

/-- Selector of `transfer(address,uint256)` (initTokenDetector). -/
def SELECTOR_TRANSFER : String := "a9059cbb"

/-- Selector of `_beforeTokenTransfer(address,address,uint256)` (rebase signature). -/
def SELECTOR_BEFORE_TOKEN_TRANSFER : String := "4a15e35d"

/-- Selector of `rebase(uint256,uint256)` (rebase signature). -/
def SELECTOR_REBASE : String := "46a4e0ed"

/-- JS `hay.includes(needle)` substring test. -/
def strIncludes (hay needle : String) : Bool := decide (needle.data <:+: hay.data)

/-- An EVM event log (only the topics matter to the detector). -/
structure EventLog where
  topics : List String

/-- The `hasFee` closure installed by TokenManager.initTokenDetector
(lines 680-703) for the `transfer(address,uint256)` signature: it expects a
list of event logs and reports a fee when more than one Transfer event
appears among them. -/
def hasFeeOnLogs (logs : List EventLog) : Bool :=
  (logs.filter (fun l => l.topics.head? == some TRANSFER_TOPIC)).length > 1

/-- detectTokenFees invokes the closure as `hasFee(tokenAddress)`, handing it
the token address string instead of a log array; `tokenAddress.filter` is not
a function in JS, so the call raises a TypeError. -/
def hasFeeCallOnAddress (_tokenAddress : Addr) : Except String Bool :=
  .error "tokenAddress.filter is not a function"

/-- RPC surface TokenManager uses for fee detection. -/
structure TokenEnv where
  getCode : Addr → Except String String

/-- The tail of the detector loop after the `transfer` entry: the two rebase
signatures, scanned in insertion order; `isRebase` entries return true on a
bytecode match. -/
def rebaseScan (code : String) : Except String Bool :=
  if strIncludes code SELECTOR_BEFORE_TOKEN_TRANSFER then .ok true
  else if strIncludes code SELECTOR_REBASE then .ok true
  else .ok false

/-- Try-block of TokenManager.detectTokenFees (lines 796-809): fetch the
bytecode, then scan `tokenDetectorSigs` in insertion order.  The `transfer`
entry has no `isRebase` flag; when its selector matches, the `hasFee` probe is
awaited (and throws, aborting the loop). -/
def detectTokenFeesTry (env : TokenEnv) (tokenAddress : Addr) : Except String Bool :=
  match env.getCode tokenAddress with
  | .error e => .error e
  | .ok code =>
    if strIncludes code SELECTOR_TRANSFER then
      match hasFeeCallOnAddress tokenAddress with
      | .error e => .error e
      | .ok fee => if fee then .ok true else rebaseScan code
    else rebaseScan code

/-- TokenManager.detectTokenFees (lines 795-814): any error inside the
try-block is caught and turned into `false`. -/
def detectTokenFees (env : TokenEnv) (tokenAddress : Addr) : Bool :=
  match detectTokenFeesTry env tokenAddress with
  | .ok b => b
  | .error _ => false

/-- Mutable TokenManager state relevant to blacklisting. -/
structure TokenManagerState where
  blacklistedTokens : List Addr

/-- TokenManager.isTokenBlacklisted (lines 767-790): static deny-list first,
then the fee/rebase heuristic (a hit is added to the deny-list).  The source's
catch branch returns true ("If error, conservatively blacklist"), but
`detectTokenFees` catches its own errors and returns false, so the call never
throws and that branch is dead. -/
def isTokenBlacklisted (env : TokenEnv) (st : TokenManagerState) (tokenAddress : Addr) :
    Bool × TokenManagerState :=
  if st.blacklistedTokens.contains tokenAddress then (true, st)
  else if detectTokenFees env tokenAddress then
    (true, ⟨tokenAddress :: st.blacklistedTokens⟩)
  else (false, st)

/-- A bytecode fetch that fails, as on any RPC error during heuristic detection. -/
def failingCodeEnv : TokenEnv := ⟨fun _ => .error "RPC timeout"⟩

/-! ## SandwichExecutor (utils/SandwichExecutor.js)

Times are JS `Date.now()` milliseconds (ℕ).  `this.currentNonce` starts as
`null`, so it is an `Option ℕ`; note that JS `!this.currentNonce` is also true
for the value 0. -/

/-- `this.nonceRefreshInterval = 30000` (line 23). -/
def nonceRefreshInterval : ℕ := 30000

/-- Executor nonce state: `currentNonce` and `lastNonceRefresh` (lines 21-22). -/
structure ExecutorState where
  currentNonce : Option ℕ
  lastNonceRefresh : ℕ

/-- JS truthiness of `!this.currentNonce`: both `null` and `0` are falsy. -/
def nonceFalsy (c : Option ℕ) : Bool := c.getD 0 == 0

/-- SandwichExecutor.refreshNonce (lines 316-333).  `chainCount` is the
outcome of `wallet.getTransactionCount()`.  On a fetch error the stored nonce
is kept if one is held; with no (truthy) stored nonce the error `Failed to
get nonce and no previous nonce available` is thrown. -/
def refreshNonce (now : ℕ) (chainCount : Except String ℕ) (s : ExecutorState) :
    Except String ExecutorState :=
  if nonceFalsy s.currentNonce || decide (now - s.lastNonceRefresh > nonceRefreshInterval) then
    match chainCount with
    | .ok n => .ok ⟨some n, now⟩
    | .error _ =>
      if nonceFalsy s.currentNonce then
        .error "Failed to get nonce and no previous nonce available"
      else .ok s
  else .ok s

/-- A transaction handed to the chain by executeWithETH / executeWithFlashLoan;
only the nonce it carries matters here. -/
structure SubmittedTx where
  nonce : ℕ

/-- Outcome of executeSandwich: the result object plus what was submitted. -/
structure ExecutionResult where
  success : Bool
  submitted : Option SubmittedTx

/-- SandwichExecutor.executeSandwich (lines 36-99), nonce-relevant behaviour:
`await this.refreshNonce()` (a throw is caught by the outer catch and turned
into `{ success: false }` with nothing submitted), then
`const nonce = this.currentNonce++`, then exactly one contract transaction
carrying that nonce is handed to the chain (both the direct-ETH and the
flash-loan branch submit once); `submitOk` abstracts whether submission and
receipt tracking succeed. -/
def executeSandwich (now : ℕ) (chainCount : Except String ℕ) (submitOk : Bool)
    (s : ExecutorState) : ExecutionResult × ExecutorState :=
  match refreshNonce now chainCount s with
  | .error _ => (⟨false, none⟩, s)
  | .ok s1 =>
    let n := s1.currentNonce.getD 0
    let s2 : ExecutorState := ⟨some (n + 1), s1.lastNonceRefresh⟩
    (⟨submitOk, some ⟨n⟩⟩, s2)

/-! ## OpportunityProcessor (core/OpportunityProcessor.js)

The in-flight set is `this.pendingOpportunities`, a JS `Map` keyed by the
victim transaction hash; `this.processedOpportunities` is a `Set` of hashes
already handled.  Opportunity objects are opaque here (ℕ). -/

/-- A pending-map entry `{ opportunity, detected: Date.now() }` (lines 81-84). -/
structure OppEntry where
  opportunity : ℕ
  detected : ℕ
deriving DecidableEq

/-- JS `Map.prototype.set`: replace the value of an existing key in place,
otherwise append the new binding. -/
def mapSet {α : Type} (m : List (ℕ × α)) (k : ℕ) (v : α) : List (ℕ × α) :=
  match m with
  | [] => [(k, v)]
  | (k', v') :: rest => if k' = k then (k, v) :: rest else (k', v') :: mapSet rest k v

/-- OpportunityProcessor state relevant to admission. -/
structure ProcessorState where
  processedOpportunities : List ℕ
  pendingOpportunities : List (ℕ × OppEntry)
deriving DecidableEq

/-- OpportunityProcessor.addOpportunity (lines 74-88): skip identifiers already
in the processed set (returning false), otherwise
`pendingOpportunities.set(txHash, { opportunity, detected: Date.now() })`
and return true. -/
def addOpportunity (st : ProcessorState) (txHash opportunity now : ℕ) :
    Bool × ProcessorState :=
  if st.processedOpportunities.contains txHash then (false, st)
  else
    (true, ⟨st.processedOpportunities,
      mapSet st.pendingOpportunities txHash ⟨opportunity, now⟩⟩)

/-! ## TransactionDecoder (utils/TransactionDecoder.js)

Addresses are canonical ℕ (so all `toLowerCase()` calls are identities), call
data is an opaque blob (ℕ), and every collaborator that can fail over the
network is an `Except`-valued field of `DecoderEnv`. -/

/-- A `config.SUPPORTED_DEXES` entry: router address, factory address and the
(optional) init-code hash; the router ABI itself lives behind
`DecoderEnv.parseTransaction`. -/
structure Dex where
  address : Addr
  factory : Addr
  initCodeHash : Option ℕ

/-- A pending transaction as delivered by the provider. -/
structure PendingTx where
  hash : ℕ
  /-- The destination field of the source's transaction object, named `to`
  there (that word is reserved in Lean, hence `toAddr`). -/
  toAddr : Option Addr
  data : ℕ
  value : ℕ
  gasPrice : ℕ

/-- Arguments of a decoded router call; each swap variant reads the fields its
ABI declares. -/
structure DecodedArgs where
  path : List Addr
  amountIn : ℕ
  amountOutMin : ℕ
  amountInMax : ℕ
  amountOut : ℕ
  deadline : ℕ

/-- `Interface.parseTransaction` result: function name plus arguments. -/
structure DecodedTx where
  name : String
  args : DecodedArgs

/-- Normalized swap details (extractSwapDetails result): `amountOutMin` and
`amountOut` are mutually exclusive depending on the variant. -/
structure SwapDetails where
  path : List Addr
  amountIn : ℕ
  amountOutMin : Option ℕ
  amountOut : Option ℕ
  deadline : ℕ

/-- TokenManager.checkPairLiquidity verdict. -/
structure LiquidityCheck where
  isLiquid : Bool
  isTooDeep : Bool

/-- A pair snapshot from TokenManager.getPairReserves. -/
structure PairInfo where
  token0 : Addr
  token1 : Addr
  reserve0 : ℕ
  reserve1 : ℕ

/-- External collaborators of the decoder.  `parseTransaction` is the router
Interface decode (it throws on an unrecognized selector or malformed
arguments); `isTokenBlacklistedQ` and `checkPairLiquidity` never throw (their
implementations above / in TokenManager catch internally);
`getTokenValueInETH` degrades to estimates instead of throwing;
`factoryGetPair` is the on-chain fallback (it can reject);
`getPairReserves` returns null on error. -/
structure DecoderEnv where
  dexes : List Dex
  WETH : Addr
  minOpportunitySize : ℕ
  parseTransaction : Addr → ℕ → Except String DecodedTx
  isTokenBlacklistedQ : Addr → Bool
  checkPairLiquidity : Addr → Addr → LiquidityCheck
  getTokenValueInETH : Addr → ℕ → ℕ
  create2Address : Addr → Addr → Addr → ℕ → Addr
  factoryGetPair : Addr → Addr → Addr → Except String Addr
  getPairReserves : Addr → Option PairInfo

/-- TransactionDecoder.isSupportedRouter (lines 130-134). -/
def isSupportedRouter (env : DecoderEnv) (address : Addr) : Bool :=
  env.dexes.any (fun dex => dex.address == address)

/-- TransactionDecoder.isSwapFunction (lines 139-143). -/
def isSwapFunction (functionName : String) : Bool :=
  functionName.startsWith "swap" || strIncludes functionName "Swap" ||
    strIncludes functionName "ExactTokens"

/-- TransactionDecoder.extractSwapDetails (lines 148-207): the six variants,
matched by substring tests on the function name in source order; native-asset
legs substitute the wrapped-native address at the relevant path end.  (The
source wraps this in a try/catch returning null, reachable only through
absent argument fields, which the decoded-ABI shape excludes.) -/
def extractSwapDetails (env : DecoderEnv) (decoded : DecodedTx) (tx : PendingTx) :
    Option SwapDetails :=
  let args := decoded.args
  let name := decoded.name
  if strIncludes name "swapExactTokensForTokens" then
    some ⟨args.path, args.amountIn, some args.amountOutMin, none, args.deadline⟩
  else if strIncludes name "swapTokensForExactTokens" then
    some ⟨args.path, args.amountInMax, none, some args.amountOut, args.deadline⟩
  else if strIncludes name "swapExactETHForTokens" then
    some ⟨env.WETH :: args.path.filter (fun p => p != env.WETH), tx.value,
      some args.amountOutMin, none, args.deadline⟩
  else if strIncludes name "swapExactTokensForETH" then
    some ⟨args.path.filter (fun p => p != env.WETH) ++ [env.WETH], args.amountIn,
      some args.amountOutMin, none, args.deadline⟩
  else if strIncludes name "swapTokensForExactETH" then
    some ⟨args.path.filter (fun p => p != env.WETH) ++ [env.WETH], args.amountInMax,
      none, some args.amountOut, args.deadline⟩
  else if strIncludes name "swapETHForExactTokens" then
    some ⟨env.WETH :: args.path.filter (fun p => p != env.WETH), tx.value,
      none, some args.amountOut, args.deadline⟩
  else none

/-- TransactionDecoder.isValidTokenPair (lines 212-228). -/
def isValidTokenPair (env : DecoderEnv) (path : List Addr) : Bool :=
  if path.length < 2 then false
  else
    let tokenA := path.headD 0
    let tokenB := path.getLastD 0
    if env.isTokenBlacklistedQ tokenA || env.isTokenBlacklistedQ tokenB then false
    else
      let liq := env.checkPairLiquidity tokenA tokenB
      liq.isLiquid && !liq.isTooDeep

/-- TransactionDecoder.getPairAddress (lines 233-271): missing factory throws;
the create2 computation is used when the init-code hash exists, otherwise the
try/catch falls back to the factory `getPair` contract call (which itself can
reject). -/
def getPairAddress (env : DecoderEnv) (tokenA tokenB router : Addr) : Except String Addr :=
  match env.dexes.find? (fun dex => dex.address == router) with
  | none => .error "Factory address not found for router"
  | some dex =>
    let tokens := if tokenA < tokenB then (tokenA, tokenB) else (tokenB, tokenA)
    match dex.initCodeHash with
    | some initCodeHash =>
      .ok (env.create2Address dex.factory tokens.1 tokens.2 initCodeHash)
    | none => env.factoryGetPair dex.factory tokenA tokenB

/-- TransactionDecoder.calculateSandwichParameters output (lines 306-311). -/
structure SimpleSandwichEstimate where
  optimalFrontRunAmount : ℕ
  optimalBackRunAmount : ℕ
  estimatedProfit : ℕ
  confidence : ℚ

/-- TransactionDecoder.calculateSandwichParameters (lines 276-312), the
simplified estimator: 20% front-run, price impact `(v*1000/reserveIn)/1000`
(BigNumber floor division; dividing by a zero reserve throws, and
`.toNumber()` throws past 2^53), confidence clamped to `[0,1]`, 0.2%
estimated profit, 95% back-run. -/
def calculateSandwichParameters (path : List Addr) (victimAmountIn : ℕ)
    (pairInfo : PairInfo) : Except String SimpleSandwichEstimate :=
  let token0IsInput := path.headD 0 == pairInfo.token0
  let reserveIn := if token0IsInput then pairInfo.reserve0 else pairInfo.reserve1
  let optimalFrontRunAmount := victimAmountIn * 20 / 100
  if reserveIn = 0 then .error "division by zero"
  else
    let impactMilli := victimAmountIn * 1000 / reserveIn
    if impactMilli ≥ 2 ^ 53 then .error "overflow"
    else
      let priceImpact : ℚ := (impactMilli : ℚ) / 1000
      let confidence : ℚ := min 1 (max 0 (1 - priceImpact * 2))
      let estimatedProfit := victimAmountIn * 20 / 10000
      let optimalBackRunAmount := optimalFrontRunAmount * 95 / 100
      .ok ⟨optimalFrontRunAmount, optimalBackRunAmount, estimatedProfit, confidence⟩

/-- A classified opportunity (the object built at lines 104-120). -/
structure Opportunity where
  victimTx : ℕ
  router : Addr
  path : List Addr
  amountIn : ℕ
  amountOutMin : Option ℕ
  deadline : ℕ
  pairAddress : Addr
  pairInfo : PairInfo
  optimalFrontRunAmount : ℕ
  optimalBackRunAmount : ℕ
  estimatedProfit : ℕ
  confidence : ℚ
  gasPrice : ℕ
  suggestedGasPrice : ℕ
  submittedTime : ℕ

/-- The try-block of analyzePendingTransaction (lines 47-124).  Every
rejection path returns `ok none` (null); only collaborator rejections that
the source does not catch locally (`getPairAddress` fallback, the estimator's
BigNumber faults) surface as errors — which the outer catch then swallows. -/
def analyzePendingTransactionTry (env : DecoderEnv) (tx : PendingTx) (router now : ℕ) :
    Except String (Option Opportunity) :=
  match env.dexes.find? (fun dex => dex.address == router) with
  | none => .ok none
  | some _ =>
    match env.parseTransaction router tx.data with
    | .error _ => .ok none
    | .ok decodedInput =>
      if ! isSwapFunction decodedInput.name then .ok none
      else
        match extractSwapDetails env decodedInput tx with
        | none => .ok none
        | some swapDetails =>
          if ! isValidTokenPair env swapDetails.path then .ok none
          else
            let tokenInValue := env.getTokenValueInETH (swapDetails.path.headD 0)
              swapDetails.amountIn
            if tokenInValue < env.minOpportunitySize then .ok none
            else
              match getPairAddress env (swapDetails.path.headD 0)
                  (swapDetails.path.getD 1 0) router with
              | .error e => .error e
              | .ok pairAddress =>
                match env.getPairReserves pairAddress with
                | none => .ok none
                | some pairInfo =>
                  match calculateSandwichParameters swapDetails.path
                      swapDetails.amountIn pairInfo with
                  | .error e => .error e
                  | .ok est =>
                    if est.estimatedProfit ≤ 0 ∨ est.confidence < 7 / 10 then .ok none
                    else
                      let suggestedGasPrice := tx.gasPrice * 115 / 100
                      .ok (some ⟨tx.hash, router, swapDetails.path, swapDetails.amountIn,
                        swapDetails.amountOutMin, swapDetails.deadline, pairAddress,
                        pairInfo, est.optimalFrontRunAmount, est.optimalBackRunAmount,
                        est.estimatedProfit, est.confidence, tx.gasPrice,
                        suggestedGasPrice, now⟩)

/-- TransactionDecoder.analyzePendingTransaction (lines 41-125): the
destination filter runs before the try-block; any error escaping the
try-block is caught, logged, and turned into null. -/
def analyzePendingTransaction (env : DecoderEnv) (tx : PendingTx) (now : ℕ) :
    Option Opportunity :=
  match tx.toAddr with
  | none => none
  | some router =>
    if ! isSupportedRouter env router then none
    else
      match analyzePendingTransactionTry env tx router now with
      | .ok result => result
      | .error _ => none

/-! ## Concurrent dispatch and the nonce sequence (SandwichExecutor.js 36-99, 316-333)

JavaScript interleaves concurrent `executeSandwich` calls only at `await`
boundaries.  The nonce-relevant steps of one dispatch are:
  pc 0 — the refreshNonce condition check: if a refresh is needed the call
         awaits `wallet.getTransactionCount()` (a suspension point),
         otherwise it proceeds directly to the increment;
  pc 1 — resume from that await: write `this.currentNonce = chain count` and
         `this.lastNonceRefresh = now`;
  pc 2 — the synchronous (hence atomic) `const nonce = this.currentNonce++`;
  pc 3 — done (the submission itself does not touch the counter).
A schedule lists which dispatch takes its next step at each instant. -/

/-- One concurrent dispatch: its program counter and the nonce it was
assigned (populated at the increment step). -/
structure DispatchThread where
  pc : ℕ
  assigned : Option ℕ
deriving DecidableEq

/-- The shared executor fields plus the per-dispatch threads. -/
structure DispatchSystem where
  currentNonce : Option ℕ
  lastNonceRefresh : ℕ
  threads : List DispatchThread
deriving DecidableEq

/-- One scheduler step: thread `t` executes its next nonce-relevant step of
executeSandwich; the chain answers `chainCount` and the clock reads `now`. -/
def dispatchStep (chainCount now : ℕ) (sys : DispatchSystem) (t : ℕ) : DispatchSystem :=
  match sys.threads[t]? with
  | none => sys
  | some th =>
    if th.pc = 0 then
      if nonceFalsy sys.currentNonce
          || decide (now - sys.lastNonceRefresh > nonceRefreshInterval) then
        { sys with threads := sys.threads.set t ⟨1, th.assigned⟩ }
      else
        { sys with threads := sys.threads.set t ⟨2, th.assigned⟩ }
    else if th.pc = 1 then
      { currentNonce := some chainCount, lastNonceRefresh := now,
        threads := sys.threads.set t ⟨2, th.assigned⟩ }
    else if th.pc = 2 then
      let n := sys.currentNonce.getD 0
      { sys with currentNonce := some (n + 1), threads := sys.threads.set t ⟨3, some n⟩ }
    else sys

/-- Run a schedule of steps. -/
def dispatchRun (chainCount now : ℕ) (sys : DispatchSystem) (sched : List ℕ) : DispatchSystem :=
  sched.foldl (dispatchStep chainCount now) sys

/-- The multiset of nonce values assigned so far. -/
def assignedNonces (sys : DispatchSystem) : Multiset ℕ :=
  (sys.threads.filterMap DispatchThread.assigned : List ℕ)

/-! ## Theorems -/

theorem calculateOptimalFrontRunAmount_amount_eq (x y v fee : ℝ) :
    (calculateOptimalFrontRunAmount x y v fee).optimalFrontRunAmount =
      min (max 0 ((Real.sqrt (x * v * (fee / 1000)) - x) / (fee / 1000))) (v * 0.3) := rfl

/-- C1: for every input to `calculateOptimalFrontRunAmount`, the clamped
front-run amount satisfies `0 ≤ a* ≤ 0.3 * victimAmount`.  The hypothesis
`0 ≤ victimAmount` reflects the source domain: the victim amount is a decoded
uint256 swap amount, hence nonnegative. -/
theorem clamped_frontRun_in_range (reserveIn reserveOut victimAmount fee : ℝ)
    (hv : 0 ≤ victimAmount) :
    0 ≤ (calculateOptimalFrontRunAmount reserveIn reserveOut victimAmount fee).optimalFrontRunAmount ∧
      (calculateOptimalFrontRunAmount reserveIn reserveOut victimAmount fee).optimalFrontRunAmount
        ≤ 0.3 * victimAmount := by
  rw [calculateOptimalFrontRunAmount_amount_eq]
  constructor
  · apply le_min (le_max_left _ _)
    nlinarith
  · calc min (max 0 ((Real.sqrt (reserveIn * victimAmount * (fee / 1000)) - reserveIn) /
          (fee / 1000))) (victimAmount * 0.3)
        ≤ victimAmount * 0.3 := min_le_right _ _
      _ = 0.3 * victimAmount := mul_comm _ _

/-- Witness for C1 at reserves (1000, 1000), victim amount 10, fee 997. -/
theorem clamped_frontRun_in_range_witness :
    (0 : ℝ) ≤ 10 ∧
      (0 ≤ (calculateOptimalFrontRunAmount 1000 1000 10 997).optimalFrontRunAmount ∧
        (calculateOptimalFrontRunAmount 1000 1000 10 997).optimalFrontRunAmount ≤ 0.3 * 10) :=
  ⟨by norm_num, clamped_frontRun_in_range 1000 1000 10 997 (by norm_num)⟩

/-- One constant-product hop over nonnegative data stays within the output
reserve and is itself nonnegative. -/
theorem hopOut_le_reserve (rIn rOut amt gamma : ℝ)
    (hIn : 0 ≤ rIn) (hOut : 0 ≤ rOut) (hamt : 0 ≤ amt) (hg : 0 ≤ gamma) :
    0 ≤ hopOut rIn rOut amt gamma ∧ hopOut rIn rOut amt gamma ≤ rOut := by
  have hd : 0 ≤ rIn + amt * gamma := by positivity
  rcases eq_or_lt_of_le hd with hd0 | hdpos
  · constructor
    · exact le_of_eq (by simp [hopOut, ← hd0])
    · simp [hopOut, ← hd0]
      exact hOut
  · constructor
    · exact div_nonneg (by positivity) (le_of_lt hdpos)
    · rw [hopOut, div_le_iff₀ hdpos]
      nlinarith

/-- C3: in the three-hop simulation over nonnegative reserves and amounts, no
hop outputs more than its output-side reserve and every updated reserve stays
nonnegative (the source updates reserves after the first two hops). -/
theorem simulation_conservation (x y a v gamma : ℝ)
    (hx : 0 ≤ x) (hy : 0 ≤ y) (ha : 0 ≤ a) (hv : 0 ≤ v) (hg : 0 ≤ gamma) :
    (simulateThreeHops x y a v gamma).frontRunOutput ≤ y ∧
      (simulateThreeHops x y a v gamma).victimOutput ≤ (simulateThreeHops x y a v gamma).newY1 ∧
      (simulateThreeHops x y a v gamma).backRunOutput ≤ (simulateThreeHops x y a v gamma).newX2 ∧
      0 ≤ (simulateThreeHops x y a v gamma).newX1 ∧
      0 ≤ (simulateThreeHops x y a v gamma).newY1 ∧
      0 ≤ (simulateThreeHops x y a v gamma).newX2 ∧
      0 ≤ (simulateThreeHops x y a v gamma).newY2 := by
  obtain ⟨h1n, h1le⟩ := hopOut_le_reserve x y a gamma hx hy ha hg
  have hX1 : 0 ≤ x + a * gamma := by positivity
  have hY1 : 0 ≤ y - hopOut x y a gamma := sub_nonneg.mpr h1le
  obtain ⟨h2n, h2le⟩ :=
    hopOut_le_reserve (x + a * gamma) (y - hopOut x y a gamma) v gamma hX1 hY1 hv hg
  have hX2 : 0 ≤ x + a * gamma + v * gamma := by positivity
  have hY2 : 0 ≤ y - hopOut x y a gamma -
      hopOut (x + a * gamma) (y - hopOut x y a gamma) v gamma := sub_nonneg.mpr h2le
  obtain ⟨h3n, h3le⟩ :=
    hopOut_le_reserve
      (y - hopOut x y a gamma - hopOut (x + a * gamma) (y - hopOut x y a gamma) v gamma)
      (x + a * gamma + v * gamma) (hopOut x y a gamma) gamma hY2 hX2 h1n hg
  exact ⟨h1le, h2le, h3le, hX1, hY1, hX2, hY2⟩

/-- Witness for C3 at reserves (100, 100), front-run 10, victim 50, gamma 0.997. -/
theorem simulation_conservation_witness :
    ((0 : ℝ) ≤ 100 ∧ (0 : ℝ) ≤ 10 ∧ (0 : ℝ) ≤ 50 ∧ (0 : ℝ) ≤ 0.997) ∧
      ((simulateThreeHops 100 100 10 50 0.997).frontRunOutput ≤ 100 ∧
        (simulateThreeHops 100 100 10 50 0.997).victimOutput ≤
          (simulateThreeHops 100 100 10 50 0.997).newY1 ∧
        (simulateThreeHops 100 100 10 50 0.997).backRunOutput ≤
          (simulateThreeHops 100 100 10 50 0.997).newX2 ∧
        0 ≤ (simulateThreeHops 100 100 10 50 0.997).newX1 ∧
        0 ≤ (simulateThreeHops 100 100 10 50 0.997).newY1 ∧
        0 ≤ (simulateThreeHops 100 100 10 50 0.997).newX2 ∧
        0 ≤ (simulateThreeHops 100 100 10 50 0.997).newY2) :=
  ⟨⟨by norm_num, by norm_num, by norm_num, by norm_num⟩,
    simulation_conservation 100 100 10 50 0.997
      (by norm_num) (by norm_num) (by norm_num) (by norm_num) (by norm_num)⟩

theorem sandwichParams_always_fallback (reserveIn reserveOut amountIn : ℝ)
    (victimGasPrice networkGasPrice maxGasPriceWei : ℕ) (minProfitThreshold : ℝ) :
    calculateOptimalSandwichParams reserveIn reserveOut amountIn
      victimGasPrice networkGasPrice maxGasPriceWei minProfitThreshold = .fallback := by
  have hden : GAS_BUFFER.den = 5 := by norm_num [GAS_BUFFER]
  have h : bnFromNumber GAS_BUFFER = .error "underflow" := by simp [bnFromNumber, hden]
  simp [calculateOptimalSandwichParams, h]

theorem hopOut_zero_amt (rIn rOut gamma : ℝ) : hopOut rIn rOut 0 gamma = 0 := by
  simp [hopOut]

theorem simulateThreeHops_zero_frontRun (x y v gamma : ℝ) :
    (simulateThreeHops x y 0 v gamma).frontRunOutput = 0 ∧
      (simulateThreeHops x y 0 v gamma).backRunOutput = 0 := by
  constructor <;> simp [simulateThreeHops, hopOut_zero_amt]

theorem calculateOptimalFrontRunAmount_profit_eq (x y v fee : ℝ) :
    (calculateOptimalFrontRunAmount x y v fee).expectedProfit =
      (simulateThreeHops x y
          (min (max 0 ((Real.sqrt (x * v * (fee / 1000)) - x) / (fee / 1000))) (v * 0.3))
          v (fee / 1000)).backRunOutput -
        min (max 0 ((Real.sqrt (x * v * (fee / 1000)) - x) / (fee / 1000))) (v * 0.3) := rfl

theorem scenarioA_unconstrained_neg :
    (Real.sqrt ((1000 : ℝ) * 10 * (997 / 1000)) - 1000) / (997 / 1000) < 0 := by
  have h2 : Real.sqrt ((1000 : ℝ) * 10 * (997 / 1000)) < 1000 := by
    have h1 : (1000 : ℝ) * 10 * (997 / 1000) = 9970 := by norm_num
    rw [h1]
    exact (Real.sqrt_lt' (by norm_num)).mpr (by norm_num)
  exact div_neg_of_neg_of_pos (by linarith) (by norm_num)

theorem scenarioA_frontRun_zero :
    (calculateOptimalFrontRunAmount 1000 1000 10 997).optimalFrontRunAmount = 0 := by
  rw [calculateOptimalFrontRunAmount_amount_eq]
  rw [max_eq_left scenarioA_unconstrained_neg.le, min_eq_left (by norm_num)]

theorem sandwichParamsCore_netProfit_eq (x y v : ℝ) (vg g mx : ℕ) (thr : ℝ) :
    (sandwichParamsCore x y v vg g mx thr).netProfit =
      (calculateOptimalFrontRunAmount x y v 997).expectedProfit -
        (((g * 600000 : ℕ) : ℝ) / 10 ^ 18 +
          (calculateOptimalFrontRunAmount x y v 997).optimalFrontRunAmount
            * 12 / 10 * 9 / 10000) := rfl

/-- C2: at reserves (1000, 1000), fee 0.3% and victim input 10 the
unconstrained optimum `(sqrt(1000*10*0.997) - 1000)/0.997` is negative, the
optimizer clamps the front-run amount to 0 with expected profit 0, and the
caller `calculateOptimalSandwichParams` leaves the opportunity unprofitable
for every gas price and cap (its net profit is below the 0.005 threshold, and
the value it actually returns is the catch fallback with `profitable: false`,
which every call site rejects). -/
theorem scenarioA_rejected_unprofitable :
    (Real.sqrt ((1000 : ℝ) * 10 * (997 / 1000)) - 1000) / (997 / 1000) < 0 ∧
      (calculateOptimalFrontRunAmount 1000 1000 10 997).optimalFrontRunAmount = 0 ∧
      (calculateOptimalFrontRunAmount 1000 1000 10 997).expectedProfit = 0 ∧
      ∀ victimGasPrice networkGasPrice maxGasPriceWei : ℕ,
        (sandwichParamsCore 1000 1000 10 victimGasPrice networkGasPrice maxGasPriceWei
            (5 / 1000)).netProfit < 5 / 1000 ∧
          ¬ (calculateOptimalSandwichParams 1000 1000 10 victimGasPrice networkGasPrice
              maxGasPriceWei (5 / 1000)).isProfitable := by
  have hprofit : (calculateOptimalFrontRunAmount 1000 1000 10 997).expectedProfit = 0 := by
    rw [calculateOptimalFrontRunAmount_profit_eq]
    have hcap : min (max 0 ((Real.sqrt ((1000 : ℝ) * 10 * (997 / 1000)) - 1000) / (997 / 1000)))
        (10 * 0.3) = 0 := by
      rw [max_eq_left scenarioA_unconstrained_neg.le, min_eq_left (by norm_num)]
    rw [hcap, (simulateThreeHops_zero_frontRun 1000 1000 10 (997 / 1000)).2, sub_zero]
  refine ⟨scenarioA_unconstrained_neg, scenarioA_frontRun_zero, hprofit, fun vg g mx => ⟨?_, ?_⟩⟩
  · rw [sandwichParamsCore_netProfit_eq, hprofit, scenarioA_frontRun_zero]
    push_cast
    have hge : (0 : ℝ) ≤ (g : ℝ) * 600000 / 10 ^ 18 := by positivity
    ring_nf
    ring_nf at hge
    linarith
  · rw [sandwichParams_always_fallback]
    exact fun h => h

theorem sandwichParamsCore_profitable_eq (x y v : ℝ) (vg g mx : ℕ) (thr : ℝ) :
    (sandwichParamsCore x y v vg g mx thr).profitable =
      ((sandwichParamsCore x y v vg g mx thr).netProfit > thr) := rfl

theorem sandwichParamsCore_finalGasPrice_eq (x y v : ℝ) (vg g mx : ℕ) (thr : ℝ) :
    (sandwichParamsCore x y v vg g mx thr).finalGasPrice =
      (if calculateOptimalGasPrice vg g > mx then mx else calculateOptimalGasPrice vg g) := rfl

theorem scenarioB_sqrt_eval :
    Real.sqrt ((997 : ℝ) * 4000 * (997 / 1000)) = 1994 := by
  have h : (997 : ℝ) * 4000 * (997 / 1000) = 1994 ^ 2 := by norm_num
  rw [h, Real.sqrt_sq (by norm_num)]

theorem scenarioB_frontRun_amount :
    (calculateOptimalFrontRunAmount 997 1994 4000 997).optimalFrontRunAmount = 1000 := by
  rw [calculateOptimalFrontRunAmount_amount_eq, scenarioB_sqrt_eval]
  norm_num

theorem scenarioB_profit :
    (calculateOptimalFrontRunAmount 997 1994 4000 997).expectedProfit = 13901162 / 3991 := by
  rw [calculateOptimalFrontRunAmount_profit_eq, scenarioB_sqrt_eval]
  have hm : min (max 0 (((1994 : ℝ) - 997) / (997 / 1000))) (4000 * 0.3) = 1000 := by norm_num
  rw [hm]
  norm_num [simulateThreeHops, hopOut]

/-- C4 (code bug): on an executable opportunity whose victim bids 200 gwei
with the network at 50 gwei and `MAX_GAS_PRICE` at 100 gwei, the try-block
does compute the capped suggestion `min(max(v*1.15, g*1.10), max) = 100 gwei`,
which is below the minimum needed to front-run (`v*1.15 = 230` gwei), and the
opportunity is genuinely profitable (reserves (997, 1994), victim input 4000);
yet the returned object carries no gas price at all — building it throws on
`estimatedGasUsed.mul(GAS_BUFFER)` (fractional BigNumber) and the fallback
`{ profitable: false }` is returned — and nothing anywhere marks the
opportunity unexecutable for carrying a losing gas price. -/
theorem gasPrice_never_returned_and_no_unexecutable_check :
    (calculateOptimalSandwichParams 997 1994 4000 (2 * 10 ^ 11) (5 * 10 ^ 10) (10 ^ 11)
        (5 / 1000)).gasPrice = none ∧
      (sandwichParamsCore 997 1994 4000 (2 * 10 ^ 11) (5 * 10 ^ 10) (10 ^ 11)
          (5 / 1000)).finalGasPrice = 10 ^ 11 ∧
      (10 ^ 11 : ℕ) < 2 * 10 ^ 11 * 115 / 100 ∧
      (sandwichParamsCore 997 1994 4000 (2 * 10 ^ 11) (5 * 10 ^ 10) (10 ^ 11)
          (5 / 1000)).profitable := by
  refine ⟨?_, ?_, by norm_num, ?_⟩
  · rw [sandwichParams_always_fallback]
    rfl
  · rw [sandwichParamsCore_finalGasPrice_eq]
    norm_num [calculateOptimalGasPrice]
  · rw [sandwichParamsCore_profitable_eq, sandwichParamsCore_netProfit_eq,
      scenarioB_profit, scenarioB_frontRun_amount]
    push_cast
    norm_num

/-- C10: the fee-on-transfer branch never classifies any token as having
transfer fees.  The `hasFee` probe is invoked with the address string, always
throws, and the error is swallowed by detectTokenFees' catch (returning
false); hence detectTokenFees returns true exactly when the bytecode fetch
succeeds, the `transfer` selector is absent (otherwise the throwing probe
aborts the scan) and one of the rebase selectors matches. -/
theorem detectTokenFees_true_iff_rebase (env : TokenEnv) (tokenAddress : Addr) :
    detectTokenFees env tokenAddress = true ↔
      ∃ code, env.getCode tokenAddress = .ok code ∧
        strIncludes code SELECTOR_TRANSFER = false ∧
        (strIncludes code SELECTOR_BEFORE_TOKEN_TRANSFER = true ∨
          strIncludes code SELECTOR_REBASE = true) := by
  unfold detectTokenFees detectTokenFeesTry
  cases h : env.getCode tokenAddress with
  | error e => simp [h]
  | ok code =>
    by_cases h1 : strIncludes code SELECTOR_TRANSFER
    · simp [h, h1, hasFeeCallOnAddress]
    · by_cases h2 : strIncludes code SELECTOR_BEFORE_TOKEN_TRANSFER <;>
        by_cases h3 : strIncludes code SELECTOR_REBASE <;>
          simp [h, h1, h2, h3, rebaseScan]

/-- C6 (code bug): isTokenBlacklisted reduces to `in static deny-list OR
detectTokenFees`; when heuristic detection errors (here: the bytecode fetch
fails) the error is swallowed inside detectTokenFees, which returns false, so
a token that is not statically denied comes back NOT blacklisted — the code
fails open where both the spec and the source's own catch-branch comment
require failing closed. -/
theorem blacklist_fails_open_on_heuristic_error :
    (∀ env st t, (isTokenBlacklisted env st t).1 =
        (st.blacklistedTokens.contains t || detectTokenFees env t)) ∧
      (isTokenBlacklisted failingCodeEnv ⟨[]⟩ 7).1 = false := by
  constructor
  · intro env st t
    unfold isTokenBlacklisted
    by_cases h1 : t ∈ st.blacklistedTokens <;>
      by_cases h2 : detectTokenFees env t <;> simp [h1, h2]
  · rfl

/-- C7: before any dispatch the nonce is refreshed from the chain whenever no
value is yet held or more than 30 s have elapsed since the last refresh; and
if the refresh fails while no prior value exists, executeSandwich fails
closed — a failure result and no submitted transaction. -/
theorem nonce_refresh_policy_and_fail_closed (now : ℕ) (chainCount : Except String ℕ)
    (submitOk : Bool) (s : ExecutorState) :
    ((s.currentNonce = none ∨ now - s.lastNonceRefresh > 30000) →
      ∀ n, chainCount = .ok n → refreshNonce now chainCount s = .ok ⟨some n, now⟩) ∧
      ((∃ e, chainCount = .error e) → s.currentNonce = none →
        (executeSandwich now chainCount submitOk s).1.success = false ∧
          (executeSandwich now chainCount submitOk s).1.submitted = none) := by
  constructor
  · intro hcond n hn
    subst hn
    rcases hcond with h | h
    · simp [refreshNonce, nonceFalsy, h]
    · have : decide (now - s.lastNonceRefresh > nonceRefreshInterval) = true := by
        simpa [nonceRefreshInterval] using h
      simp [refreshNonce, this]
  · rintro ⟨e, he⟩ hnone
    subst he
    simp [executeSandwich, refreshNonce, nonceFalsy, hnone]

/-- Witness for C7: a cold executor (no nonce, never refreshed) refreshes from
the chain when it answers, and fails closed when it does not. -/
theorem nonce_refresh_policy_and_fail_closed_witness :
    refreshNonce 40000 (.ok 7) ⟨none, 0⟩ = .ok ⟨some 7, 40000⟩ ∧
      ((executeSandwich 0 (.error "rpc down") true ⟨none, 0⟩).1.success = false ∧
        (executeSandwich 0 (.error "rpc down") true ⟨none, 0⟩).1.submitted = none) :=
  ⟨(nonce_refresh_policy_and_fail_closed 40000 (.ok 7) true ⟨none, 0⟩).1 (Or.inl rfl) 7 rfl,
    (nonce_refresh_policy_and_fail_closed 0 (.error "rpc down") true ⟨none, 0⟩).2
      ⟨"rpc down", rfl⟩ rfl⟩

theorem mapSet_keys {α : Type} (m : List (ℕ × α)) (k : ℕ) (v : α) :
    (mapSet m k v).map Prod.fst =
      if k ∈ m.map Prod.fst then m.map Prod.fst else m.map Prod.fst ++ [k] := by
  induction m with
  | nil => simp [mapSet]
  | cons hd tl ih =>
    obtain ⟨k', v'⟩ := hd
    by_cases h : k' = k
    · subst h
      simp [mapSet]
    · have hne : ¬ k = k' := fun hk => h hk.symm
      by_cases h2 : k ∈ tl.map Prod.fst <;> simp [mapSet, h, ih, h2, hne]

/-- C8 counterexample: two detections of the same identifier in quick
succession, the first still pending and not yet processed — the second call is
NOT a no-op: it is admitted again (returns true) and replaces the stored
entry with the new opportunity object and a fresh detection time. -/
theorem duplicate_detection_replaces_pending_entry :
    (addOpportunity ⟨[], []⟩ 5 100 1000).2.pendingOpportunities = [(5, ⟨100, 1000⟩)] ∧
      (addOpportunity (addOpportunity ⟨[], []⟩ 5 100 1000).2 5 200 2000).1 = true ∧
      (addOpportunity (addOpportunity ⟨[], []⟩ 5 100 1000).2 5 200 2000).2.pendingOpportunities
        = [(5, ⟨200, 2000⟩)] := by decide

/-- C8 (amended): at most one in-flight entry per source transaction
identifier is ever held — `Map.set` keyed by the identifier preserves key
uniqueness — and a detection of an already-processed identifier is a no-op;
but a second detection while the identifier is still pending and unprocessed
replaces the stored entry (the `Map.set` overwrite shown in the
counterexample), it does not leave the existing entry untouched. -/
theorem addOpportunity_unique_keys_and_processed_noop
    (st : ProcessorState) (txHash opportunity now : ℕ)
    (hkeys : (st.pendingOpportunities.map Prod.fst).Nodup) :
    ((addOpportunity st txHash opportunity now).2.pendingOpportunities.map Prod.fst).Nodup ∧
      (txHash ∈ st.processedOpportunities →
        addOpportunity st txHash opportunity now = (false, st)) := by
  constructor
  · unfold addOpportunity
    by_cases hp : txHash ∈ st.processedOpportunities
    · simpa [hp] using hkeys
    · rw [if_neg (by simp [hp])]
      simp only [mapSet_keys]
      by_cases hmem : txHash ∈ st.pendingOpportunities.map Prod.fst
      · simpa [hmem] using hkeys
      · simp [hmem, List.nodup_append, hkeys, List.disjoint_singleton]
  · intro hp
    simp [addOpportunity, hp]

/-- Witness for C8's amended theorem: a state holding one pending entry and
one processed identifier. -/
theorem addOpportunity_unique_keys_and_processed_noop_witness :
    (([(5, (⟨100, 1000⟩ : OppEntry))].map Prod.fst).Nodup ∧
        (9 : ℕ) ∈ [9]) ∧
      (((addOpportunity ⟨[9], [(5, ⟨100, 1000⟩)]⟩ 9 300 3000).2.pendingOpportunities.map
          Prod.fst).Nodup ∧
        addOpportunity ⟨[9], [(5, ⟨100, 1000⟩)]⟩ 9 300 3000 = (false, ⟨[9], [(5, ⟨100, 1000⟩)]⟩)) :=
  ⟨⟨by decide, by decide⟩,
    (addOpportunity_unique_keys_and_processed_noop ⟨[9], [(5, ⟨100, 1000⟩)]⟩ 9 300 3000
        (by decide)).1,
    (addOpportunity_unique_keys_and_processed_noop ⟨[9], [(5, ⟨100, 1000⟩)]⟩ 9 300 3000
        (by decide)).2 (by decide)⟩

/-- C5: a pending transaction to a known router whose call data has an
unrecognized selector or malformed encoding (the Interface decode errors)
classifies to null; and no exception ever reaches the caller — even when the
try-block itself errors, the outer catch yields null. -/
theorem decode_failure_returns_null (env : DecoderEnv) (tx : PendingTx) (router now : ℕ)
    (hto : tx.toAddr = some router) (hsup : isSupportedRouter env router = true)
    (hdecode : ∃ e, env.parseTransaction router tx.data = .error e) :
    analyzePendingTransaction env tx now = none ∧
      ∀ (env2 : DecoderEnv) (tx2 : PendingTx) (r2 now2 : ℕ) (e : String),
        tx2.toAddr = some r2 → analyzePendingTransactionTry env2 tx2 r2 now2 = .error e →
          analyzePendingTransaction env2 tx2 now2 = none := by
  constructor
  · obtain ⟨e, he⟩ := hdecode
    unfold analyzePendingTransaction
    rw [hto]
    dsimp only
    rw [if_neg (by simp [hsup])]
    cases hfind : env.dexes.find? (fun dex => dex.address == router) with
    | none => simp [analyzePendingTransactionTry, hfind]
    | some dex => simp [analyzePendingTransactionTry, hfind, he]
  · intro env2 tx2 r2 now2 e hto2 herr
    unfold analyzePendingTransaction
    rw [hto2]
    dsimp only
    by_cases hs : isSupportedRouter env2 r2
    · rw [if_neg (by simp [hs]), herr]
    · rw [if_pos (by simp [hs])]

/-- Witness for C5: a router at address 1 whose interface recognizes no
selector in the observed call data. -/
theorem decode_failure_returns_null_witness :
    ((⟨10, some 1, 99, 0, 100⟩ : PendingTx).toAddr = some 1 ∧
        isSupportedRouter ⟨[⟨1, 2, none⟩], 50, 0, fun _ _ => .error "no matching function",
          fun _ => false, fun _ _ => ⟨false, false⟩, fun _ _ => 0, fun _ _ _ _ => 0,
          fun _ _ _ => .ok 0, fun _ => none⟩ 1 = true) ∧
      analyzePendingTransaction ⟨[⟨1, 2, none⟩], 50, 0, fun _ _ => .error "no matching function",
          fun _ => false, fun _ _ => ⟨false, false⟩, fun _ _ => 0, fun _ _ _ _ => 0,
          fun _ _ _ => .ok 0, fun _ => none⟩ ⟨10, some 1, 99, 0, 100⟩ 77 = none :=
  ⟨⟨rfl, by decide⟩,
    (decode_failure_returns_null _ ⟨10, some 1, 99, 0, 100⟩ 1 77 rfl (by decide)
        ⟨"no matching function", rfl⟩).1⟩

/-- C9 counterexample: two concurrent dispatches on a cold executor (no nonce
held, chain count 5), both entering the refresh before either resumes.  The
second dispatch's refresh write lands after the first dispatch's increment
and resets the counter, so both dispatches are assigned nonce 5 — a repeat,
where the claim demands exactly {5, 6}. -/
theorem concurrent_refresh_duplicates_nonce :
    ((dispatchRun 5 0 ⟨none, 0, [⟨0, none⟩, ⟨0, none⟩]⟩ [0, 1, 0, 0, 1, 1]).threads.map
        DispatchThread.assigned = [some 5, some 5]) ∧
      ¬ ((dispatchRun 5 0 ⟨none, 0, [⟨0, none⟩, ⟨0, none⟩]⟩ [0, 1, 0, 0, 1, 1]).threads.filterMap
          DispatchThread.assigned).Nodup := by decide

theorem filterMap_assigned_set (l : List DispatchThread) :
    ∀ (t : ℕ) (th : DispatchThread), l[t]? = some th → th.assigned = none → ∀ n : ℕ,
      (((l.set t ⟨3, some n⟩).filterMap DispatchThread.assigned : List ℕ) : Multiset ℕ) =
        n ::ₘ ((l.filterMap DispatchThread.assigned : List ℕ) : Multiset ℕ) := by
  induction l with
  | nil => intro t th hget; simp at hget
  | cons hd tl ih =>
    intro t th hget hass n
    cases t with
    | zero =>
      rw [List.getElem?_cons_zero] at hget
      obtain rfl : hd = th := by simpa using hget
      simp [List.set, List.filterMap_cons, hass]
    | succ t' =>
      rw [List.getElem?_cons_succ] at hget
      rw [List.set]
      cases hhd : hd.assigned with
      | none => simp [List.filterMap_cons, hhd, ih t' th hget hass n]
      | some m =>
        simp only [List.filterMap_cons, hhd]
        rw [show ((m :: (tl.set t' ⟨3, some n⟩).filterMap DispatchThread.assigned : List ℕ) :
            Multiset ℕ) =
          m ::ₘ (((tl.set t' ⟨3, some n⟩).filterMap DispatchThread.assigned : List ℕ) :
            Multiset ℕ) from rfl]
        rw [ih t' th hget hass n, Multiset.cons_swap]
        rfl

theorem dispatch_assign_phase (chainCount now : ℕ) :
    ∀ (sched : List ℕ) (sys : DispatchSystem) (base : ℕ),
      sys.currentNonce = some base → sched.Nodup →
      (∀ i ∈ sched, ∃ th, sys.threads[i]? = some th ∧ th.pc = 2 ∧ th.assigned = none) →
      assignedNonces (dispatchRun chainCount now sys sched) =
        assignedNonces sys + (List.range' base sched.length : List ℕ) := by
  intro sched
  induction sched with
  | nil => intro sys base _ _ _; simp [dispatchRun, List.range']
  | cons t rest ih =>
    intro sys base hc hnodup hall
    obtain ⟨th, hget, hpc, hass⟩ := hall t (by simp)
    have hstep : dispatchStep chainCount now sys t =
        ⟨some (base + 1), sys.lastNonceRefresh, sys.threads.set t ⟨3, some base⟩⟩ := by
      simp [dispatchStep, hget, hpc, hc]
    have hrun : dispatchRun chainCount now sys (t :: rest) =
        dispatchRun chainCount now
          ⟨some (base + 1), sys.lastNonceRefresh, sys.threads.set t ⟨3, some base⟩⟩ rest := by
      simp [dispatchRun, hstep]
    rw [hrun]
    have htne : ∀ i ∈ rest, i ≠ t := fun i hi =>
      fun hit => (List.nodup_cons.mp hnodup).1 (hit ▸ hi)
    have hall2 : ∀ i ∈ rest,
        ∃ th2, (sys.threads.set t ⟨3, some base⟩)[i]? = some th2 ∧
          th2.pc = 2 ∧ th2.assigned = none := by
      intro i hi
      obtain ⟨th2, hg2, hp2, ha2⟩ := hall i (by simp [hi])
      exact ⟨th2, by rw [List.getElem?_set_ne (fun h => htne i hi h.symm)]; exact hg2, hp2, ha2⟩
    rw [ih _ (base + 1) rfl (List.nodup_cons.mp hnodup).2 hall2]
    have hset : assignedNonces
        ⟨some (base + 1), sys.lastNonceRefresh, sys.threads.set t ⟨3, some base⟩⟩ =
        base ::ₘ assignedNonces sys := by
      unfold assignedNonces
      exact filterMap_assigned_set sys.threads t th hget hass base
    rw [hset, List.length_cons, List.range'_succ, Multiset.cons_add]
    rw [show ((base :: List.range' (base + 1) rest.length : List ℕ) : Multiset ℕ) =
      base ::ₘ (List.range' (base + 1) rest.length : List ℕ) from rfl]
    rw [Multiset.add_cons]

/-- C9 (amended): the read-and-increment `const nonce = this.currentNonce++`
is atomic, and provided every chain-refresh write lands before any dispatch
performs its increment (leaving the shared counter at `base`), every
interleaving of the N increments hands out exactly the nonces
{base, ..., base + N - 1}: no repeats and no gaps.  The proviso is forced by
the counterexample: a refresh write interleaved after another dispatch's
increment resets the counter and a nonce repeats. -/
theorem atomic_increments_assign_contiguous_nonces (chainCount now : ℕ)
    (sys : DispatchSystem) (base : ℕ) (sched : List ℕ)
    (hc : sys.currentNonce = some base) (hnodup : sched.Nodup)
    (hall : ∀ i ∈ sched, ∃ th, sys.threads[i]? = some th ∧ th.pc = 2 ∧ th.assigned = none)
    (hfresh : ∀ th ∈ sys.threads, th.assigned = none) :
    assignedNonces (dispatchRun chainCount now sys sched) =
        (List.range' base sched.length : List ℕ) ∧
      (List.range' base sched.length).Nodup := by
  have hempty : assignedNonces sys = 0 := by
    unfold assignedNonces
    rw [List.filterMap_eq_nil_iff.mpr (fun th hth => by simp [hfresh th hth])]
    rfl
  constructor
  · rw [dispatch_assign_phase chainCount now sched sys base hc hnodup hall, hempty, zero_add]
  · exact List.nodup_range' _ _

/-- Witness for C9's amended theorem: two dispatches past their (already
landed) refreshes, counter at 5, scheduled second-then-first: the assigned
nonces are exactly {5, 6}. -/
theorem atomic_increments_assign_contiguous_nonces_witness :
    ((⟨some 5, 0, [⟨2, none⟩, ⟨2, none⟩]⟩ : DispatchSystem).currentNonce = some 5 ∧
        ([1, 0] : List ℕ).Nodup) ∧
      assignedNonces (dispatchRun 9 0 ⟨some 5, 0, [⟨2, none⟩, ⟨2, none⟩]⟩ [1, 0]) =
          (List.range' 5 2 : List ℕ) ∧
        (List.range' 5 2).Nodup :=
  ⟨⟨rfl, by decide⟩,
    atomic_increments_assign_contiguous_nonces 9 0 ⟨some 5, 0, [⟨2, none⟩, ⟨2, none⟩]⟩ 5 [1, 0]
      rfl (by decide)
      (by
        intro i hi
        simp only [List.mem_cons, List.not_mem_nil, or_false] at hi
        rcases hi with rfl | rfl
        · exact ⟨⟨2, none⟩, rfl, rfl, rfl⟩
        · exact ⟨⟨2, none⟩, rfl, rfl, rfl⟩)
      (by
        intro th hth
        simp only [List.mem_cons, List.not_mem_nil, or_false] at hth
        rcases hth with rfl | rfl <;> rfl)⟩

end SandwichBot
